import Mathlib

set_option maxRecDepth 100000

/-!
# Verification of the team-assignment server (`src/server.js`)

Shallow embedding of the core logic of the server: the static team
configuration, the SQLite-backed identity store (`users` table with a
UNIQUE constraint on `name`), and the three data endpoints
(`POST /api/assign-team`, `GET /api/stats`, `GET /admin`).

The store is modelled as a list of rows; the `UNIQUE NOT NULL`
constraint on `name` is modelled by `createUser` failing when the name
is already present.  `Math.random()` is modelled as a rational
`r ∈ [0, 1)` supplied as an explicit argument, and the current
timestamp as a `Nat` argument.
-/

/-- Configuration `const TEAMS = [Red, Blue, Green, Yellow]`. -/
def TEAMS : List String := ["Red", "Blue", "Green", "Yellow"]

/-- Configuration `const TEAM_COLORS`, mapping each team name to its
hex color — a JS object is an association list; absent keys read as
`undefined`, i.e. `none`. -/
def TEAM_COLORS : List (String × String) :=
  [("Red", "#FF5252"), ("Blue", "#2196F3"), ("Green", "#4CAF50"), ("Yellow", "#FFEB3B")]

/-- Configuration `const TEAM_EMOJIS`, mapping each team name to its emoji. -/
def TEAM_EMOJIS : List (String × String) :=
  [("Red", "🔴"), ("Blue", "🔵"), ("Green", "🟢"), ("Yellow", "🟡")]

/-- A row of the `users` table:
`id INTEGER PRIMARY KEY AUTOINCREMENT, name TEXT UNIQUE NOT NULL,
team TEXT NOT NULL, created_at DATETIME DEFAULT CURRENT_TIMESTAMP`. -/
structure UserRecord where
  id : Nat
  name : String
  team : String
  created_at : Nat
deriving DecidableEq

/-- The `users` table, in insertion order. -/
abbrev Store := List UserRecord

/-- Query `SELECT * FROM users WHERE name = ?` (SQLite TEXT `=` is exact,
case-sensitive comparison); at most one row exists by the UNIQUE
constraint, and `.get(...)` returns the first. -/
def getUserByName (s : Store) (n : String) : Option UserRecord :=
  s.find? (fun u => u.name == n)

/-- AUTOINCREMENT: the next `id` is larger than every existing one. -/
def nextId (s : Store) : Nat :=
  s.foldr (fun u m => max u.id m) 0 + 1

/-- The error raised by SQLite when an INSERT violates the UNIQUE
constraint on `name`. -/
inductive DbError where
  | uniqueViolation
deriving DecidableEq

/-- Statement `INSERT INTO users (name, team) VALUES (?, ?)` — fails with a
constraint violation when a row with this `name` already exists,
otherwise appends a fresh row. -/
def createUser (s : Store) (n t : String) (now : Nat) : Except DbError Store :=
  if s.any (fun u => u.name == n) then .error .uniqueViolation
  else .ok (s ++ [⟨nextId s, n, t, now⟩])

/-- Query `SELECT team, COUNT(*) as count FROM users GROUP BY team` — one row
per distinct team value present in the table, with its row count. -/
def countTeam (s : Store) (t : String) : Nat :=
  (s.filter (fun u => u.team == t)).length

def getTeamStats (s : Store) : List (String × Nat) :=
  ((s.map (fun u => u.team)).dedup).map (fun t => (t, countTeam s t))

/-- Query `SELECT * FROM users ORDER BY created_at DESC`. -/
def getAllUsers (s : Store) : List UserRecord :=
  s.mergeSort (fun a b => b.created_at ≤ a.created_at)

/-- JS property assignment `obj[k] = v` on an object modelled as an
association list: overwrite the entry if the key exists, else append. -/
def objSet (m : List (String × Nat)) (k : String) (v : Nat) : List (String × Nat) :=
  if m.any (fun p => p.1 == k) then
    m.map (fun p => if p.1 == k then (k, v) else p)
  else m ++ [(k, v)]

/-- The ECMAScript whitespace set trimmed by `String.prototype.trim`:
WhiteSpace (TAB, VT, FF, SP, NBSP, ZWNBSP, Unicode Zs) plus
LineTerminator (LF, CR, LS, PS). -/
def jsIsWhitespace (c : Char) : Bool :=
  c = '\t' || c = '\n' || c.val = 0x0B || c.val = 0x0C || c = '\r' || c = ' ' ||
  c.val = 0xA0 || c.val = 0x1680 || (0x2000 ≤ c.val && c.val ≤ 0x200A) ||
  c.val = 0x2028 || c.val = 0x2029 || c.val = 0x202F || c.val = 0x205F ||
  c.val = 0x3000 || c.val = 0xFEFF

/-- Sanitization `name.trim()`: remove leading and trailing ECMAScript whitespace. -/
def jsTrim (s : String) : String :=
  String.mk (((s.toList.dropWhile jsIsWhitespace).reverse.dropWhile jsIsWhitespace).reverse)

/-- Index `Math.floor(Math.random() * TEAMS.length)` for a random draw `r`. -/
def pickIndex (r : ℚ) : Nat :=
  (Rat.floor (r * (TEAMS.length : ℚ))).toNat

/-- Selection `TEAMS[Math.floor(Math.random() * TEAMS.length)]` — JS indexing out
of range yields `undefined`, i.e. `none`. -/
def randomTeam (r : ℚ) : Option String :=
  TEAMS.get? (pickIndex r)

/-- The JSON responses `POST /api/assign-team` can produce:
a 200 success body `{ success: true, name, team, color, emoji, isNewUser }`
(color/emoji are `undefined` when the team is not a key of the config
objects), a 400 body `{ success: false, error }`, or a 500 body
`{ success: false, error }`. -/
inductive AssignResponse where
  | ok (name team : String) (color emoji : Option String) (isNewUser : Bool)
  | clientError (error : String)
  | serverError (error : String)
deriving DecidableEq

/-- The body of the `/api/assign-team` handler after validation, acting
on a (possibly stale) lookup snapshot `sRead` and the store `sWrite`
current at insert time.  In a purely sequential execution
`sRead = sWrite`; they differ when a concurrent request committed its
insert between the lookup of this request and its insert. -/
def assignCore (sRead sWrite : Store) (cleanName : String) (r : ℚ) (now : Nat) :
    AssignResponse × Store :=
  match getUserByName sRead cleanName with
  | some u =>
      (.ok u.name u.team (TEAM_COLORS.lookup u.team) (TEAM_EMOJIS.lookup u.team) false, sWrite)
  | none =>
      match randomTeam r with
      | some t =>
          match createUser sWrite cleanName t now with
          | .ok s' => (.ok cleanName t (TEAM_COLORS.lookup t) (TEAM_EMOJIS.lookup t) true, s')
          | .error _ => (.serverError "Failed to save user", sWrite)
      | none => (.serverError "Failed to save user", sWrite)

/-- Handler `POST /api/assign-team` executed atomically (no interleaving):
validate, trim, look up, and on a miss draw a team and insert.
`name?` is `req.body.name`, absent fields reading as `undefined`. -/
def assign (s : Store) (name? : Option String) (r : ℚ) (now : Nat) :
    AssignResponse × Store :=
  match name? with
  | none => (.clientError "Name is required", s)
  | some name =>
      if jsTrim name = "" then (.clientError "Name is required", s)
      else assignCore s s (jsTrim name) r now

/-- Two concurrent `/api/assign-team` requests (validation already
passed, keys trimmed): both lookups read the initial store before
either insert commits; the database serializes the inserts, request 1
first.  Returns both responses and the final store. -/
def assignRace (s : Store) (k₁ k₂ : String) (r₁ r₂ : ℚ) (now : Nat) :
    AssignResponse × AssignResponse × Store :=
  let p₁ := assignCore s s k₁ r₁ now
  let p₂ := assignCore s p₁.2 k₂ r₂ now
  (p₁.1, p₂.1, p₂.2)

/-- Handler `GET /api/stats`: initialize every configured team to 0, then
overwrite with the counts the store reports. -/
def statsOf (s : Store) : List (String × Nat) :=
  let init := TEAMS.foldl (fun m t => objSet m t 0) []
  (getTeamStats s).foldl (fun m p => objSet m p.1 p.2) init

/-- Endpoint `GET /api/stats`: reads the store, never writes it. -/
def statsEndpoint (s : Store) : List (String × Nat) × Store :=
  (statsOf s, s)

/-- Endpoint `GET /admin`: reads all rows, renders HTML, never writes. -/
def adminEndpoint (s : Store) : List UserRecord × Store :=
  (getAllUsers s, s)

/-- Endpoint `GET /api/generate-qr`: encodes a URL as an image; it performs no
store access at all, so it maps the store to itself. -/
def qrEndpoint (s : Store) (url : String) : String × Store :=
  (url, s)


/-- Observer: the `team` field of a success response, `none` for error
responses. -/
def respTeam? : AssignResponse → Option String
  | .ok _ t _ _ _ => some t
  | .clientError _ => none
  | .serverError _ => none

/-! ## Helper lemmas -/

theorem ratFloor_eq_intFloor (q : ℚ) : q.floor = ⌊q⌋ := by
  rw [Rat.floor_def', ← Rat.floor_def]

theorem pickIndex_eq (r : ℚ) : pickIndex r = (⌊r * 4⌋).toNat := by
  rw [pickIndex, ratFloor_eq_intFloor]
  norm_num [TEAMS]

theorem pickIndex_zero : pickIndex 0 = 0 := by
  rw [pickIndex_eq]; norm_num

theorem pickIndex_quarter : pickIndex (1/4) = 1 := by
  rw [pickIndex_eq]; norm_num

theorem pickIndex_half : pickIndex (1/2) = 2 := by
  rw [pickIndex_eq]
  norm_num
  rfl

theorem randomTeam_zero : randomTeam 0 = some "Red" := by
  rw [randomTeam, pickIndex_zero]; rfl

theorem randomTeam_quarter : randomTeam (1/4) = some "Blue" := by
  rw [randomTeam, pickIndex_quarter]; rfl

theorem randomTeam_half : randomTeam (1/2) = some "Green" := by
  rw [randomTeam, pickIndex_half]; rfl

theorem pickIndex_lt (r : ℚ) (h0 : 0 ≤ r) (h1 : r < 1) : pickIndex r < TEAMS.length := by
  rw [pickIndex_eq]
  have hnn : (0 : ℤ) ≤ ⌊r * 4⌋ := Int.floor_nonneg.mpr (by positivity)
  have hlt : ⌊r * 4⌋ < 4 := by
    rw [Int.floor_lt]
    push_cast
    nlinarith
  show (⌊r * 4⌋).toNat < TEAMS.length
  simp only [TEAMS, List.length]
  omega

theorem randomTeam_isSome (r : ℚ) (h0 : 0 ≤ r) (h1 : r < 1) :
    ∃ t, randomTeam r = some t ∧ t ∈ TEAMS := by
  have h := pickIndex_lt r h0 h1
  rw [randomTeam]
  exact ⟨TEAMS.get ⟨pickIndex r, h⟩, List.get?_eq_get h, List.get_mem ..⟩

theorem mem_TEAMS_lookup (t : String) (ht : t ∈ TEAMS) :
    (TEAM_COLORS.lookup t).isSome ∧ (TEAM_EMOJIS.lookup t).isSome := by
  fin_cases ht <;> decide

theorem not_mem_TEAMS_lookup (t : String) (ht : t ∉ TEAMS) :
    TEAM_COLORS.lookup t = none ∧ TEAM_EMOJIS.lookup t = none := by
  simp only [TEAMS, List.mem_cons, List.not_mem_nil, or_false, not_or] at ht
  obtain ⟨h1, h2, h3, h4⟩ := ht
  constructor <;>
    simp [TEAM_COLORS, TEAM_EMOJIS, List.lookup,
      beq_eq_false_iff_ne.mpr h1, beq_eq_false_iff_ne.mpr h2,
      beq_eq_false_iff_ne.mpr h3, beq_eq_false_iff_ne.mpr h4]

theorem getUserByName_mem {s : Store} {n : String} {u : UserRecord}
    (h : getUserByName s n = some u) : u ∈ s ∧ u.name = n :=
  ⟨List.mem_of_find?_eq_some h, by simpa using List.find?_some h⟩

theorem getUserByName_append_of_none {s : Store} {n : String}
    (h : getUserByName s n = none) (v : UserRecord) :
    getUserByName (s ++ [v]) n = if v.name == n then some v else none := by
  unfold getUserByName at h ⊢
  rw [List.find?_append, h, Option.none_or]
  by_cases hv : v.name = n
  · rw [List.find?_cons_of_pos _ (by simp [hv]), if_pos (by simp [hv])]
  · rw [List.find?_cons_of_neg _ (by simp [hv]), if_neg (by simp [hv]), List.find?_nil]

theorem createUser_of_miss {s : Store} {n : String} (t : String) (now : Nat)
    (h : getUserByName s n = none) :
    createUser s n t now = .ok (s ++ [⟨nextId s, n, t, now⟩]) := by
  rw [createUser, if_neg]
  simp only [getUserByName, List.find?_eq_none] at h
  simpa using h

theorem createUser_of_hit {s : Store} {n : String} (t : String) (now : Nat)
    (h : getUserByName s n ≠ none) :
    createUser s n t now = .error .uniqueViolation := by
  rw [createUser, if_pos]
  have h2 : (s.find? (fun u => u.name == n)).isSome :=
    Option.isSome_iff_ne_none.mpr h
  rw [List.find?_isSome] at h2
  exact List.any_eq_true.mpr h2

theorem lookup_map_overwrite_self (m : List (String × Nat)) (k : String) (v : Nat)
    (hany : m.any (fun p => p.1 == k) = true) :
    (m.map (fun p => if p.1 == k then (k, v) else p)).lookup k = some v := by
  induction m with
  | nil => simp at hany
  | cons p m ih =>
      by_cases hp : p.1 = k
      · simp only [List.map_cons, if_pos (by simp [hp] : (p.1 == k) = true)]
        exact List.lookup_cons_self
      · simp only [List.map_cons, if_neg (by simp [hp] : ¬ (p.1 == k) = true)]
        rw [List.lookup_cons]
        have hk : (k == p.1) = false := beq_false_of_ne (Ne.symm hp)
        rw [hk]
        refine ih ?_
        rw [List.any_cons] at hany
        simpa [hp] using hany

theorem lookup_map_overwrite_ne (m : List (String × Nat)) (k : String) (v : Nat)
    (t : String) (ht : k ≠ t) :
    (m.map (fun p => if p.1 == k then (k, v) else p)).lookup t = m.lookup t := by
  induction m with
  | nil => rfl
  | cons p m ih =>
      by_cases hp : p.1 = k
      · simp only [List.map_cons, if_pos (by simp [hp] : (p.1 == k) = true)]
        rw [List.lookup_cons, List.lookup_cons]
        have h1 : (t == k) = false := beq_false_of_ne (Ne.symm ht)
        have h2 : (t == p.1) = false := by rw [hp]; exact h1
        rw [h1, h2]
        exact ih
      · simp only [List.map_cons, if_neg (by simp [hp] : ¬ (p.1 == k) = true)]
        rw [List.lookup_cons, List.lookup_cons]
        cases h : (t == p.1) with
        | true => rfl
        | false => exact ih

theorem objSet_lookup_self (m : List (String × Nat)) (k : String) (v : Nat) :
    (objSet m k v).lookup k = some v := by
  rw [objSet]
  split
  · next hany => exact lookup_map_overwrite_self m k v hany
  · next hany =>
      rw [List.lookup_append]
      have hf : m.any (fun p => p.1 == k) = false := by
        cases hx : m.any (fun p => p.1 == k) with
        | true => exact absurd hx hany
        | false => rfl
      have hm : m.lookup k = none := by
        rw [List.lookup_eq_none_iff]
        intro p hp
        have hne := List.any_eq_false.mp hf p hp
        simp only [bne_iff_ne]
        exact fun hk => hne (by simp [hk])
      rw [hm, Option.none_or, List.lookup_cons_self]

theorem objSet_lookup_ne (m : List (String × Nat)) (k : String) (v : Nat)
    (t : String) (ht : k ≠ t) :
    (objSet m k v).lookup t = m.lookup t := by
  rw [objSet]
  split
  · exact lookup_map_overwrite_ne m k v t ht
  · rw [List.lookup_append]
    have h1 : ([(k, v)] : List (String × Nat)).lookup t = none := by
      rw [List.lookup_cons]
      rw [beq_false_of_ne (Ne.symm ht), List.lookup_nil]
    rw [h1, Option.or_none]

theorem objSet_keys_of_mem (m : List (String × Nat)) (k : String) (v : Nat)
    (h : k ∈ m.map Prod.fst) :
    (objSet m k v).map Prod.fst = m.map Prod.fst := by
  rw [objSet, if_pos]
  · rw [List.map_map]
    refine List.map_congr_left ?_
    intro p _
    by_cases hp : p.1 = k
    · simp [hp]
    · simp [hp]
  · obtain ⟨p, hp, hpk⟩ := List.mem_map.mp h
    exact List.any_eq_true.mpr ⟨p, hp, by simp [hpk]⟩

theorem foldl_objSet_lookup_of_not_mem (R : List (String × Nat))
    (m : List (String × Nat)) (t : String) (h : ∀ p ∈ R, p.1 ≠ t) :
    (R.foldl (fun acc p => objSet acc p.1 p.2) m).lookup t = m.lookup t := by
  induction R generalizing m with
  | nil => rfl
  | cons p R ih =>
      rw [List.foldl_cons, ih _ (fun q hq => h q (List.mem_cons_of_mem _ hq))]
      exact objSet_lookup_ne m p.1 p.2 t (h p (List.mem_cons_self ..))

theorem foldl_objSet_lookup_of_mem (R : List (String × Nat))
    (m : List (String × Nat)) (t : String) (c : Nat)
    (hmem : (t, c) ∈ R) (hnd : (R.map Prod.fst).Nodup) :
    (R.foldl (fun acc p => objSet acc p.1 p.2) m).lookup t = some c := by
  induction R generalizing m with
  | nil => simp at hmem
  | cons p R ih =>
      rw [List.map_cons, List.nodup_cons] at hnd
      rcases List.mem_cons.mp hmem with heq | htail
      · subst heq
        rw [List.foldl_cons]
        rw [foldl_objSet_lookup_of_not_mem R _ t ?_]
        · exact objSet_lookup_self m t c
        · intro q hq hqt
          apply hnd.1
          have hqm : q.1 ∈ R.map Prod.fst := List.mem_map_of_mem Prod.fst hq
          rwa [hqt] at hqm
      · rw [List.foldl_cons]
        exact ih _ htail hnd.2

theorem foldl_objSet_keys (R : List (String × Nat)) (m : List (String × Nat))
    (h : ∀ p ∈ R, p.1 ∈ m.map Prod.fst) :
    (R.foldl (fun acc p => objSet acc p.1 p.2) m).map Prod.fst = m.map Prod.fst := by
  induction R generalizing m with
  | nil => rfl
  | cons p R ih =>
      rw [List.foldl_cons]
      have hk := objSet_keys_of_mem m p.1 p.2 (h p (List.mem_cons_self ..))
      rw [ih _ (fun q hq => hk ▸ h q (List.mem_cons_of_mem _ hq)), hk]

theorem getTeamStats_keys (s : Store) :
    (getTeamStats s).map Prod.fst = (s.map (fun u => u.team)).dedup := by
  rw [getTeamStats, List.map_map]
  have h : (Prod.fst ∘ fun t => (t, countTeam s t)) = fun t => t := rfl
  rw [h]
  simp

theorem getTeamStats_nodup (s : Store) : ((getTeamStats s).map Prod.fst).Nodup := by
  rw [getTeamStats_keys]; exact List.nodup_dedup _

theorem getTeamStats_mem (s : Store) (t : String) (h : t ∈ s.map (fun u => u.team)) :
    (t, countTeam s t) ∈ getTeamStats s :=
  List.mem_map.mpr ⟨t, List.mem_dedup.mpr h, rfl⟩

theorem countTeam_eq_zero_of_absent (s : Store) (t : String)
    (h : ∀ u ∈ s, u.team ≠ t) : countTeam s t = 0 := by
  rw [countTeam, List.length_eq_zero, List.filter_eq_nil_iff]
  intro u hu
  simp [h u hu]

theorem statsInit_eq :
    TEAMS.foldl (fun m t => objSet m t 0) [] =
      [("Red", 0), ("Blue", 0), ("Green", 0), ("Yellow", 0)] := by
  decide

theorem statsOf_lookup (s : Store) (t : String) (ht : t ∈ TEAMS) :
    (statsOf s).lookup t = some (countTeam s t) := by
  simp only [statsOf]
  by_cases hmem : t ∈ s.map (fun u => u.team)
  · exact foldl_objSet_lookup_of_mem _ _ t _ (getTeamStats_mem s t hmem) (getTeamStats_nodup s)
  · rw [foldl_objSet_lookup_of_not_mem]
    · have h0 : countTeam s t = 0 :=
        countTeam_eq_zero_of_absent s t
          (fun u hu h => hmem (h ▸ List.mem_map_of_mem _ hu))
      rw [h0, statsInit_eq]
      fin_cases ht <;> rfl
    · intro p hp hpt
      apply hmem
      have hk : p.1 ∈ (getTeamStats s).map Prod.fst := List.mem_map_of_mem _ hp
      rw [getTeamStats_keys] at hk
      rw [← hpt]
      exact List.mem_dedup.mp hk

theorem statsOf_keys (s : Store) (hall : ∀ u ∈ s, u.team ∈ TEAMS) :
    (statsOf s).map Prod.fst = TEAMS := by
  simp only [statsOf]
  rw [statsInit_eq, foldl_objSet_keys]
  · rfl
  · intro p hp
    have hk : p.1 ∈ (getTeamStats s).map Prod.fst := List.mem_map_of_mem _ hp
    rw [getTeamStats_keys] at hk
    obtain ⟨u, hu, hut⟩ := List.mem_map.mp (List.mem_dedup.mp hk)
    have := hall u hu
    rw [hut] at this
    simpa [TEAMS] using this

theorem assign_some_eq (s : Store) (n : String) (r : ℚ) (now : Nat)
    (hne : jsTrim n ≠ "") :
    assign s (some n) r now = assignCore s s (jsTrim n) r now := by
  simp [assign, hne]

theorem assignCore_hit (sRead sWrite : Store) (k : String) (r : ℚ) (now : Nat)
    (u : UserRecord) (h : getUserByName sRead k = some u) :
    assignCore sRead sWrite k r now =
      (.ok u.name u.team (TEAM_COLORS.lookup u.team) (TEAM_EMOJIS.lookup u.team) false,
       sWrite) := by
  unfold assignCore
  rw [h]

theorem assignCore_miss (sRead sWrite : Store) (k : String) (r : ℚ) (now : Nat)
    (t : String) (hmiss : getUserByName sRead k = none) (ht : randomTeam r = some t)
    (hfree : getUserByName sWrite k = none) :
    assignCore sRead sWrite k r now =
      (.ok k t (TEAM_COLORS.lookup t) (TEAM_EMOJIS.lookup t) true,
       sWrite ++ [⟨nextId sWrite, k, t, now⟩]) := by
  unfold assignCore
  rw [hmiss]
  dsimp only
  rw [ht]
  dsimp only
  rw [createUser_of_miss t now hfree]

theorem assignCore_conflict (sRead sWrite : Store) (k : String) (r : ℚ) (now : Nat)
    (t : String) (hmiss : getUserByName sRead k = none) (ht : randomTeam r = some t)
    (hhit : getUserByName sWrite k ≠ none) :
    assignCore sRead sWrite k r now = (.serverError "Failed to save user", sWrite) := by
  unfold assignCore
  rw [hmiss]
  dsimp only
  rw [ht]
  dsimp only
  rw [createUser_of_hit t now hhit]

theorem assign_bob_eval :
    assign [] (some "bob") 0 0 =
      (.ok "bob" "Red" (some "#FF5252") (some "🔴") true, [⟨1, "bob", "Red", 0⟩]) := by
  have h1 : jsTrim "bob" = "bob" := by decide
  rw [assign_some_eq _ _ _ _ (by decide), h1]
  rw [assignCore_miss [] [] "bob" 0 0 "Red" rfl randomTeam_zero rfl]
  rfl

theorem assignCore_noteam (sRead sWrite : Store) (k : String) (r : ℚ) (now : Nat)
    (hmiss : getUserByName sRead k = none) (ht : randomTeam r = none) :
    assignCore sRead sWrite k r now = (.serverError "Failed to save user", sWrite) := by
  unfold assignCore
  rw [hmiss]
  dsimp only
  rw [ht]

/-! ## Claims -/

/-- C5: an assign call whose identity key is missing, empty, or
whitespace-only fails with the 400 client error `Name is required`, and
the store is returned unchanged (no record created, no storage access). -/
theorem C5_invalid_input_rejected (s : Store) (r : ℚ) (now : Nat) (name? : Option String)
    (h : name? = none ∨ ∃ n, name? = some n ∧ jsTrim n = "") :
    assign s name? r now = (.clientError "Name is required", s) := by
  rcases h with rfl | ⟨n, rfl, hn⟩
  · rfl
  · simp [assign, hn]

theorem C5_invalid_witness :
    ((some "   " : Option String) = none ∨
      ∃ n, (some "   " : Option String) = some n ∧ jsTrim n = "") ∧
    assign [] (some "   ") 0 0 = (.clientError "Name is required", []) :=
  ⟨Or.inr ⟨"   ", rfl, by decide⟩,
   C5_invalid_input_rejected [] 0 0 (some "   ") (Or.inr ⟨"   ", rfl, by decide⟩)⟩

/-- C2, counterexample: with a stored team (`"Purple"`) absent from the
configured team list, assign returns a 200 success response whose color
and emoji are `undefined` — it does not fail with an `UnknownTeam`
server-side error as the claim states. -/
theorem C2_counterexample :
    ("Purple" ∉ TEAMS) ∧
    assign [⟨1, "alice", "Purple", 0⟩] (some "alice") 0 0 =
      (.ok "alice" "Purple" none none false, [⟨1, "alice", "Purple", 0⟩]) := by
  constructor
  · decide
  · have h1 : jsTrim "alice" = "alice" := by decide
    rw [assign_some_eq _ _ _ _ (by decide), h1]
    rw [assignCore_hit [⟨1, "alice", "Purple", 0⟩] [⟨1, "alice", "Purple", 0⟩]
          "alice" 0 0 ⟨1, "alice", "Purple", 0⟩ rfl]
    rfl

/-- C2, amended: when the team of the stored record is not in the currently
configured team list, assign returns a success response whose color and
emoji are `undefined` (`none`), with `isNewUser = false`; no
`UnknownTeam` error is produced. -/
theorem C2_stale_team_success (s : Store) (n : String) (r : ℚ) (now : Nat)
    (u : UserRecord) (hne : jsTrim n ≠ "")
    (hfind : getUserByName s (jsTrim n) = some u)
    (hteam : u.team ∉ TEAMS) :
    assign s (some n) r now = (.ok u.name u.team none none false, s) := by
  rw [assign_some_eq s n r now hne, assignCore_hit s s (jsTrim n) r now u hfind,
      (not_mem_TEAMS_lookup u.team hteam).1, (not_mem_TEAMS_lookup u.team hteam).2]

theorem C2_stale_team_witness :
    assign [⟨1, "heidi", "Octarine", 5⟩] (some "heidi") 0 0 =
      (.ok "heidi" "Octarine" none none false, [⟨1, "heidi", "Octarine", 5⟩]) :=
  C2_stale_team_success _ "heidi" 0 0 ⟨1, "heidi", "Octarine", 5⟩
    (by decide) (by decide) (by decide)

/-- C7: assign trims leading/trailing whitespace and uses the trimmed
value for everything — two inputs with the same trimmed form produce
identical responses and identical stores, and every success response
echoes exactly the trimmed name (casing preserved, no case-folding). -/
theorem C7_trim_equivalence (s : Store) (n₁ n₂ : String) (r : ℚ) (now : Nat)
    (h : jsTrim n₁ = jsTrim n₂) :
    assign s (some n₁) r now = assign s (some n₂) r now ∧
    (∀ nm tm c e b s₁, assign s (some n₁) r now = (.ok nm tm c e b, s₁) →
      nm = jsTrim n₁) := by
  constructor
  · simp only [assign, h]
  · intro nm tm c e b s₁ hok
    by_cases hne : jsTrim n₁ = ""
    · simp [assign, hne] at hok
    · rw [assign_some_eq s n₁ r now hne] at hok
      cases hfind : getUserByName s (jsTrim n₁) with
      | some u =>
          rw [assignCore_hit s s (jsTrim n₁) r now u hfind] at hok
          rw [Prod.ext_iff] at hok
          have hr := hok.1
          rw [AssignResponse.ok.injEq] at hr
          rw [← hr.1]
          exact (getUserByName_mem hfind).2
      | none =>
          cases hrt : randomTeam r with
          | some t =>
              rw [assignCore_miss s s (jsTrim n₁) r now t hfind hrt hfind] at hok
              rw [Prod.ext_iff] at hok
              have hr := hok.1
              rw [AssignResponse.ok.injEq] at hr
              exact hr.1.symm
          | none =>
              rw [assignCore_noteam s s (jsTrim n₁) r now hfind hrt] at hok
              exact absurd (congrArg Prod.fst hok) (by simp)

theorem C7_trim_witness :
    (jsTrim "Alice" = jsTrim "Alice ") ∧
    assign [] (some "Alice") 0 0 = assign [] (some "Alice ") 0 0 :=
  ⟨by decide, (C7_trim_equivalence [] "Alice" "Alice " 0 0 (by decide)).1⟩

/-- C3: once a first assign call for a key has succeeded with some team,
every later assign call with the same key returns exactly that team
(and the same display attributes) with `isNewUser = false`, and leaves
the store unchanged — no additional record is persisted. -/
theorem C3_assign_idempotent (s s₁ : Store) (n : String) (r r' : ℚ) (now now' : Nat)
    (nm tm : String) (c e : Option String) (b : Bool)
    (h : assign s (some n) r now = (.ok nm tm c e b, s₁)) :
    assign s₁ (some n) r' now' = (.ok nm tm c e false, s₁) := by
  by_cases hne : jsTrim n = ""
  · simp [assign, hne] at h
  · rw [assign_some_eq s n r now hne] at h
    rw [assign_some_eq s₁ n r' now' hne]
    cases hfind : getUserByName s (jsTrim n) with
    | some u =>
        rw [assignCore_hit s s (jsTrim n) r now u hfind] at h
        rw [Prod.ext_iff] at h
        obtain ⟨hr, hs⟩ := h
        rw [AssignResponse.ok.injEq] at hr
        obtain ⟨h1, h2, h3, h4, h5⟩ := hr
        dsimp only at hs
        rw [← hs, assignCore_hit s s (jsTrim n) r' now' u hfind]
        rw [h1, h3, h4, h2]
    | none =>
        cases hrt : randomTeam r with
        | some t =>
            rw [assignCore_miss s s (jsTrim n) r now t hfind hrt hfind] at h
            rw [Prod.ext_iff] at h
            obtain ⟨hr, hs⟩ := h
            rw [AssignResponse.ok.injEq] at hr
            obtain ⟨h1, h2, h3, h4, h5⟩ := hr
            dsimp only at hs
            have hfind₁ : getUserByName s₁ (jsTrim n) =
                some ⟨nextId s, jsTrim n, t, now⟩ := by
              rw [← hs, getUserByName_append_of_none hfind ⟨nextId s, jsTrim n, t, now⟩]
              simp
            rw [assignCore_hit s₁ s₁ (jsTrim n) r' now' _ hfind₁]
            rw [← h1, ← h2, ← h3, ← h4]
        | none =>
            rw [assignCore_noteam s s (jsTrim n) r now hfind hrt] at h
            exact absurd (congrArg Prod.fst h) (by simp)

theorem C3_idempotent_witness :
    assign [⟨1, "bob", "Red", 0⟩] (some "bob") (1/2) 9 =
      (.ok "bob" "Red" (some "#FF5252") (some "🔴") false, [⟨1, "bob", "Red", 0⟩]) :=
  C3_assign_idempotent [] [⟨1, "bob", "Red", 0⟩] "bob" 0 (1/2) 0 9
    "bob" "Red" (some "#FF5252") (some "🔴") true assign_bob_eval

/-- C1, counterexample: two concurrent first-time requests for the key
`"dave"` — the create attempt of the second request fails on the UNIQUE
constraint and the handler returns the 500 error `Failed to save user`;
it never answers with the team of the winner and `isNewUser = false`. -/
theorem C1_counterexample :
    (assignRace [] "dave" "dave" 0 0 0).2.1 = .serverError "Failed to save user" ∧
    ∀ nm tm c e, (assignRace [] "dave" "dave" 0 0 0).2.1 ≠ .ok nm tm c e false := by
  have hhit : getUserByName ([] ++ [⟨nextId [], "dave", "Red", 0⟩]) "dave" ≠ none := by
    decide
  have h : (assignRace [] "dave" "dave" 0 0 0).2.1 = .serverError "Failed to save user" := by
    simp only [assignRace]
    rw [assignCore_miss [] [] "dave" 0 0 "Red" rfl randomTeam_zero rfl]
    dsimp only
    have hconf := assignCore_conflict [] ([] ++ [⟨nextId [], "dave", "Red", 0⟩])
      "dave" 0 0 "Red" rfl randomTeam_zero hhit
    rw [hconf]
  exact ⟨h, fun nm tm c e hne => by rw [h] at hne; exact AssignResponse.noConfusion hne⟩

/-- C1, amended: when the create attempt of an assign call fails
because a concurrent request already inserted the key (the conflict
case), the handler returns the 500 server error `Failed to save user`
to the caller instead of re-fetching the existing record. -/
theorem C1_conflict_surfaced_as_error (s : Store) (k : String) (r₁ r₂ : ℚ) (now : Nat)
    (hmiss : getUserByName s k = none)
    (h1 : 0 ≤ r₁) (h2 : r₁ < 1) (h3 : 0 ≤ r₂) (h4 : r₂ < 1) :
    (assignRace s k k r₁ r₂ now).2.1 = .serverError "Failed to save user" := by
  obtain ⟨t₁, ht₁, -⟩ := randomTeam_isSome r₁ h1 h2
  obtain ⟨t₂, ht₂, -⟩ := randomTeam_isSome r₂ h3 h4
  have hhit : getUserByName (s ++ [⟨nextId s, k, t₁, now⟩]) k ≠ none := by
    rw [getUserByName_append_of_none hmiss ⟨nextId s, k, t₁, now⟩]
    simp
  simp only [assignRace]
  rw [assignCore_miss s s k r₁ now t₁ hmiss ht₁ hmiss]
  dsimp only
  have hconf := assignCore_conflict s (s ++ [⟨nextId s, k, t₁, now⟩]) k r₂ now t₂
    hmiss ht₂ hhit
  rw [hconf]

theorem C1_conflict_witness :
    (assignRace [] "oscar" "oscar" (1/4) (1/4) 0).2.1 =
      .serverError "Failed to save user" :=
  C1_conflict_surfaced_as_error [] "oscar" (1/4) (1/4) 0 rfl
    (by norm_num) (by norm_num) (by norm_num) (by norm_num)

/-- C4, counterexample: two concurrent first-time requests for the key
`"erin"` — only the winner observes the assigned team; the loser
observes a 500 error, so not all concurrent calls observe the same
team. -/
theorem C4_counterexample :
    (assignRace [] "erin" "erin" (1/4) (1/4) 0).1 =
      .ok "erin" "Blue" (some "#2196F3") (some "🔵") true ∧
    (assignRace [] "erin" "erin" (1/4) (1/4) 0).2.1 =
      .serverError "Failed to save user" ∧
    (assignRace [] "erin" "erin" (1/4) (1/4) 0).1 ≠
      (assignRace [] "erin" "erin" (1/4) (1/4) 0).2.1 := by
  have hhit : getUserByName ([] ++ [⟨nextId [], "erin", "Blue", 0⟩]) "erin" ≠ none := by
    decide
  have h : assignRace [] "erin" "erin" (1/4) (1/4) 0 =
      (.ok "erin" "Blue" (some "#2196F3") (some "🔵") true,
       .serverError "Failed to save user", [] ++ [⟨nextId [], "erin", "Blue", 0⟩]) := by
    simp only [assignRace]
    rw [assignCore_miss [] [] "erin" (1/4) 0 "Blue" rfl randomTeam_quarter rfl]
    dsimp only
    have hconf := assignCore_conflict [] ([] ++ [⟨nextId [], "erin", "Blue", 0⟩])
      "erin" (1/4) 0 "Blue" rfl randomTeam_quarter hhit
    rw [hconf]
    rfl
  refine ⟨by rw [h], by rw [h], ?_⟩
  rw [h]
  intro hne
  exact AssignResponse.noConfusion hne

/-- C4, amended: for two concurrent first-time assign calls with the
same key, exactly one record is persisted (the final store holds
exactly one row for the key, appended to the old store); the winning
call observes the stored team, but the losing call receives the 500
error `Failed to save user` rather than observing the same team. -/
theorem C4_race_single_record (s : Store) (k : String) (r₁ r₂ : ℚ) (now : Nat)
    (hmiss : getUserByName s k = none)
    (h1 : 0 ≤ r₁) (h2 : r₁ < 1) (h3 : 0 ≤ r₂) (h4 : r₂ < 1) :
    ∃ t, randomTeam r₁ = some t ∧
      (assignRace s k k r₁ r₂ now).1 =
        .ok k t (TEAM_COLORS.lookup t) (TEAM_EMOJIS.lookup t) true ∧
      (assignRace s k k r₁ r₂ now).2.1 = .serverError "Failed to save user" ∧
      (assignRace s k k r₁ r₂ now).2.2 = s ++ [⟨nextId s, k, t, now⟩] ∧
      ((assignRace s k k r₁ r₂ now).2.2.filter (fun u => u.name == k)).length = 1 := by
  obtain ⟨t, ht, -⟩ := randomTeam_isSome r₁ h1 h2
  obtain ⟨t₂, ht₂, -⟩ := randomTeam_isSome r₂ h3 h4
  have hhit : getUserByName (s ++ [⟨nextId s, k, t, now⟩]) k ≠ none := by
    rw [getUserByName_append_of_none hmiss ⟨nextId s, k, t, now⟩]
    simp
  have hrace : assignRace s k k r₁ r₂ now =
      (.ok k t (TEAM_COLORS.lookup t) (TEAM_EMOJIS.lookup t) true,
       .serverError "Failed to save user", s ++ [⟨nextId s, k, t, now⟩]) := by
    simp only [assignRace]
    rw [assignCore_miss s s k r₁ now t hmiss ht hmiss]
    dsimp only
    have hconf := assignCore_conflict s (s ++ [⟨nextId s, k, t, now⟩]) k r₂ now t₂
      hmiss ht₂ hhit
    rw [hconf]
  refine ⟨t, ht, by rw [hrace], by rw [hrace], by rw [hrace], ?_⟩
  rw [hrace]
  dsimp only
  rw [List.filter_append]
  have hnil : s.filter (fun u => u.name == k) = [] := by
    rw [List.filter_eq_nil_iff]
    intro u hu
    simp only [getUserByName, List.find?_eq_none] at hmiss
    exact hmiss u hu
  rw [hnil]
  simp

theorem C4_race_witness :
    ∃ t, randomTeam (1/2) = some t ∧
      (assignRace [] "peggy" "peggy" (1/2) (1/2) 3).1 =
        .ok "peggy" t (TEAM_COLORS.lookup t) (TEAM_EMOJIS.lookup t) true ∧
      (assignRace [] "peggy" "peggy" (1/2) (1/2) 3).2.1 =
        .serverError "Failed to save user" ∧
      (assignRace [] "peggy" "peggy" (1/2) (1/2) 3).2.2 =
        [] ++ [⟨nextId [], "peggy", t, 3⟩] ∧
      ((assignRace [] "peggy" "peggy" (1/2) (1/2) 3).2.2.filter
          (fun u => u.name == "peggy")).length = 1 :=
  C4_race_single_record [] "peggy" (1/2) (1/2) 3 rfl
    (by norm_num) (by norm_num) (by norm_num) (by norm_num)

/-- C9: no exposed operation updates or deletes an existing assignment
record — every record of the pre-store is contained unchanged (same id,
identity key, team, created_at) in the post-store; assign either leaves
the store untouched or appends a single record whose key was previously
absent, and stats, admin listing, and QR generation return the store
unchanged. -/
theorem C9_records_immutable (s : Store) (name? : Option String) (r : ℚ) (now : Nat) :
    ((assign s name? r now).2 = s ∨
      ∃ v : UserRecord, (assign s name? r now).2 = s ++ [v] ∧
        getUserByName s v.name = none) ∧
    (∀ u ∈ s, u ∈ (assign s name? r now).2) ∧
    (statsEndpoint s).2 = s ∧ (adminEndpoint s).2 = s ∧
    ∀ url, (qrEndpoint s url).2 = s := by
  have hmain : (assign s name? r now).2 = s ∨
      ∃ v : UserRecord, (assign s name? r now).2 = s ++ [v] ∧
        getUserByName s v.name = none := by
    cases name? with
    | none => exact Or.inl rfl
    | some n =>
        by_cases hne : jsTrim n = ""
        · left; simp [assign, hne]
        · rw [assign_some_eq s n r now hne]
          cases hfind : getUserByName s (jsTrim n) with
          | some u =>
              left
              rw [assignCore_hit s s (jsTrim n) r now u hfind]
          | none =>
              cases hrt : randomTeam r with
              | some t =>
                  right
                  refine ⟨⟨nextId s, jsTrim n, t, now⟩, ?_, hfind⟩
                  rw [assignCore_miss s s (jsTrim n) r now t hfind hrt hfind]
              | none =>
                  left
                  rw [assignCore_noteam s s (jsTrim n) r now hfind hrt]
  refine ⟨hmain, ?_, rfl, rfl, fun _ => rfl⟩
  intro u hu
  rcases hmain with h | ⟨v, h, -⟩
  · rw [h]; exact hu
  · rw [h]; exact List.mem_append_left _ hu

theorem C9_immutable_witness :
    ((assign [⟨1, "ruth", "Red", 0⟩] (some "ruth") 0 1).2 =
        ([⟨1, "ruth", "Red", 0⟩] : Store) ∨
      ∃ v : UserRecord, (assign [⟨1, "ruth", "Red", 0⟩] (some "ruth") 0 1).2 =
          ([⟨1, "ruth", "Red", 0⟩] : Store) ++ [v] ∧
        getUserByName [⟨1, "ruth", "Red", 0⟩] v.name = none) ∧
    (∀ u ∈ ([⟨1, "ruth", "Red", 0⟩] : Store),
      u ∈ (assign [⟨1, "ruth", "Red", 0⟩] (some "ruth") 0 1).2) ∧
    (statsEndpoint [⟨1, "ruth", "Red", 0⟩]).2 = ([⟨1, "ruth", "Red", 0⟩] : Store) ∧
    (adminEndpoint [⟨1, "ruth", "Red", 0⟩]).2 = ([⟨1, "ruth", "Red", 0⟩] : Store) ∧
    ∀ url, (qrEndpoint [⟨1, "ruth", "Red", 0⟩] url).2 = ([⟨1, "ruth", "Red", 0⟩] : Store) :=
  C9_records_immutable [⟨1, "ruth", "Red", 0⟩] (some "ruth") 0 1

/-- C10: for every random draw 0 ≤ r < 1 the computed index
floor(r · |TEAMS|) is a valid index into the team array, so the
selected team is a configured team whose color and emoji are defined,
and a new-user response carries exactly those configured attributes. -/
theorem C10_index_in_range (r : ℚ) (h0 : 0 ≤ r) (h1 : r < 1) :
    pickIndex r < TEAMS.length ∧
    ∃ t c e, randomTeam r = some t ∧ t ∈ TEAMS ∧
      TEAM_COLORS.lookup t = some c ∧ TEAM_EMOJIS.lookup t = some e ∧
      ∀ (s : Store) (n : String) (now : Nat),
        jsTrim n ≠ "" → getUserByName s (jsTrim n) = none →
        assign s (some n) r now =
          (.ok (jsTrim n) t (some c) (some e) true,
           s ++ [⟨nextId s, jsTrim n, t, now⟩]) := by
  refine ⟨pickIndex_lt r h0 h1, ?_⟩
  obtain ⟨t, ht, htm⟩ := randomTeam_isSome r h0 h1
  obtain ⟨hc, he⟩ := mem_TEAMS_lookup t htm
  obtain ⟨c, hc⟩ := Option.isSome_iff_exists.mp hc
  obtain ⟨e, he⟩ := Option.isSome_iff_exists.mp he
  refine ⟨t, c, e, ht, htm, hc, he, ?_⟩
  intro s n now hne hmiss
  rw [assign_some_eq s n r now hne,
      assignCore_miss s s (jsTrim n) r now t hmiss ht hmiss, hc, he]

theorem C10_index_witness :
    pickIndex (1/2) < TEAMS.length ∧
    ∃ t c e, randomTeam (1/2) = some t ∧ t ∈ TEAMS ∧
      TEAM_COLORS.lookup t = some c ∧ TEAM_EMOJIS.lookup t = some e ∧
      ∀ (s : Store) (n : String) (now : Nat),
        jsTrim n ≠ "" → getUserByName s (jsTrim n) = none →
        assign s (some n) (1/2) now =
          (.ok (jsTrim n) t (some c) (some e) true,
           s ++ [⟨nextId s, jsTrim n, t, now⟩]) :=
  C10_index_in_range (1/2) (by norm_num) (by norm_num)

/-- C8: the draw for a new key is uniform over the configured teams —
for each index i < |TEAMS| the draws r ∈ [0,1) that select index i are
exactly those in [i/|TEAMS|, (i+1)/|TEAMS|), an interval of length
1/|TEAMS| independent of i — and the selection does not depend on the
identity key: assign calls on two different unassigned keys with the
same draw select the same team. -/
theorem C8_uniform_key_independent :
    (∀ i : Nat, i < TEAMS.length → ∀ r : ℚ, 0 ≤ r → r < 1 →
      (pickIndex r = i ↔
        (i : ℚ) / TEAMS.length ≤ r ∧ r < ((i : ℚ) + 1) / TEAMS.length)) ∧
    (∀ i : Nat, i < TEAMS.length →
      ((i : ℚ) + 1) / TEAMS.length - (i : ℚ) / TEAMS.length = 1 / TEAMS.length) ∧
    (∀ (s : Store) (n₁ n₂ : String) (r : ℚ) (now : Nat),
      getUserByName s (jsTrim n₁) = none → getUserByName s (jsTrim n₂) = none →
      jsTrim n₁ ≠ "" → jsTrim n₂ ≠ "" →
      respTeam? (assign s (some n₁) r now).1 = respTeam? (assign s (some n₂) r now).1) := by
  have len4 : (TEAMS.length : ℚ) = 4 := by norm_num [TEAMS]
  refine ⟨?_, ?_, ?_⟩
  · intro i hi r hr0 hr1
    rw [pickIndex_eq, len4]
    have hnn : (0 : ℤ) ≤ ⌊r * 4⌋ := Int.floor_nonneg.mpr (by positivity)
    constructor
    · intro hpi
      have hfl : ⌊r * 4⌋ = (i : ℤ) := by omega
      rw [Int.floor_eq_iff] at hfl
      push_cast at hfl
      exact ⟨by linarith [hfl.1], by linarith [hfl.2]⟩
    · rintro ⟨ha, hb⟩
      have hfl : ⌊r * 4⌋ = (i : ℤ) := by
        rw [Int.floor_eq_iff]
        push_cast
        exact ⟨by linarith, by linarith⟩
      omega
  · intro i hi
    rw [len4]
    ring
  · intro s n₁ n₂ r now hm₁ hm₂ hne₁ hne₂
    rw [assign_some_eq s n₁ r now hne₁, assign_some_eq s n₂ r now hne₂]
    cases hrt : randomTeam r with
    | some t =>
        rw [assignCore_miss s s (jsTrim n₁) r now t hm₁ hrt hm₁,
            assignCore_miss s s (jsTrim n₂) r now t hm₂ hrt hm₂]
        rfl
    | none =>
        rw [assignCore_noteam s s (jsTrim n₁) r now hm₁ hrt,
            assignCore_noteam s s (jsTrim n₂) r now hm₂ hrt]

theorem C8_uniform_witness :
    (pickIndex (1/2) = 2 ↔
      ((2 : Nat) : ℚ) / TEAMS.length ≤ 1/2 ∧
        (1/2 : ℚ) < (((2 : Nat) : ℚ) + 1) / TEAMS.length) ∧
    respTeam? (assign [] (some "trent") (1/2) 0).1 =
      respTeam? (assign [] (some "uma") (1/2) 0).1 :=
  ⟨C8_uniform_key_independent.1 2 (by decide) (1/2) (by norm_num) (by norm_num),
   C8_uniform_key_independent.2.2 [] "trent" "uma" (1/2) 0 rfl rfl
     (by decide) (by decide)⟩

/-- C6, counterexample: on a store holding a record whose team
`"Purple"` is not in the configured list, the domain of the stats mapping is
not the set of configured teams — the stale stored team appears as an
extra key with its count. -/
theorem C6_counterexample :
    ("Purple" ∉ TEAMS) ∧
    (statsOf [⟨1, "mallory", "Purple", 0⟩]).map Prod.fst =
      ["Red", "Blue", "Green", "Yellow", "Purple"] := by
  constructor
  · decide
  · decide

/-- C6, amended: for every store all of whose stored teams are
currently configured, the domain of the stats mapping is exactly the
configured team list; unconditionally, every configured team maps to
its stored count (zero when absent), and the freshly initialized
(empty) store maps every configured team to zero. -/
theorem C6_stats_cover_configured (s : Store) (hall : ∀ u ∈ s, u.team ∈ TEAMS) :
    (statsOf s).map Prod.fst = TEAMS ∧
    (∀ t ∈ TEAMS, (statsOf s).lookup t = some (countTeam s t)) ∧
    statsOf [] = [("Red", 0), ("Blue", 0), ("Green", 0), ("Yellow", 0)] :=
  ⟨statsOf_keys s hall, fun t ht => statsOf_lookup s t ht, by decide⟩

theorem C6_stats_witness :
    (statsOf [⟨1, "frank", "Blue", 0⟩]).map Prod.fst = TEAMS ∧
    (statsOf [⟨1, "frank", "Blue", 0⟩]).lookup "Blue" = some 1 := by
  obtain ⟨h1, h2, -⟩ := C6_stats_cover_configured [⟨1, "frank", "Blue", 0⟩] (by decide)
  refine ⟨h1, ?_⟩
  rw [h2 "Blue" (by decide)]
  decide
